import Mathlib

/-!
Shallow embedding of uTimerLib (src/src/uTimerLib.cpp), version 1.1.1.

We embed the AVR build of the library (the backend the specification uses as
its running example: a 16384 µs overflow period of 256 ticks of 64 µs each,
assuming F_CPU = 16000000 so the frequency recalculation is skipped), together
with the ESP8266/ESP32 millisecond conversion. Hardware register writes
(TCCR2B, TCNT2, TIMSK2, _loadRemaining, ...) act only on the peripheral, not on
the controller state, and are therefore not part of the state; the expiry
events they eventually cause are modelled by feeding `interruptStep`.

On AVR, `unsigned long int` is 32 bits wide, so every C product below is taken
modulo 2 ^ 32. The floating point expressions of the source all have the shape
`a - (e + 0.5)` or `e + 0.5` where `e` is a nonnegative integer far below 2 ^ 53:
every intermediate IEEE double value is an exact multiple of 1/2, so double
arithmetic is exact and is modelled by exact arithmetic in half-units.
-/

/-- Timer mode enumeration: UTIMERLIB_TYPE_OFF, UTIMERLIB_TYPE_TIMEOUT,
UTIMERLIB_TYPE_INTERVAL. -/
inductive TimerType where
  | off
  | timeout
  | interval
deriving DecidableEq

/-- Observable events emitted by one run of the expiry handler
uTimerLib::_interrupt, in source order: `cleared` marks a call of
`clearTimer()`, `invoked` marks an invocation `_cb()` of the user callback. -/
inductive Evt where
  | cleared
  | invoked
deriving DecidableEq

/-- State of the timer singleton. The field list is that of uTimerLib.h (the
header is not under src/; the fields are recovered from every use in
uTimerLib.cpp): `_type`, the live countdown `_overflows` and `_remaining`, the
plan mirrors `__overflows` and `__remaining` used to re-arm intervals, and the
callback pointer `_cb`, modelled as `Option Nat` (identity of the function,
`none` for NULL). -/
structure TimerState where
  _type : TimerType
  _overflows : Nat
  _remaining : Nat
  __overflows : Nat
  __remaining : Nat
  _cb : Option Nat
deriving DecidableEq

/-- Modelled from the spec: the header uTimerLib.h (not under src/) declares
and zero-initialises the state fields; spec sections 3 and 4.2 start the
controller in the Off state with no callback attached. -/
def initState : TimerState := ⟨.off, 0, 0, 0, 0, none⟩

/-- Exact model of the C expression `a - (e + 0.5)`, where `e` is a nonnegative
integer expression, evaluated in IEEE double and truncated on assignment back
to an unsigned integer. All doubles involved are exact multiples of 1/2 below
2 ^ 53, so the double value is exactly `(2a - (2e + 1)) / 2`; truncation of this
nonnegative value toward zero is Nat division by 2. -/
def cTruncSubHalf (a e : Nat) : Nat := (2 * a - (2 * e + 1)) / 2

/-- Exact model of the C expression `e + 0.5`, `e` a nonnegative integer
expression, evaluated in IEEE double and truncated on assignment to an
unsigned integer. -/
def cTruncAddHalf (e : Nat) : Nat := (2 * e + 1) / 2

/-- Source lines 136-164: the `_overflows` computation of
uTimerLib::_attachInterrupt_us on AVR. Only the `us >= 16384` branch chains
full overflow periods; every shorter duration fits in a single counter run. -/
def avrOverflowsUs (us : Nat) : Nat :=
  if us ≥ 16384 then us / 16384 else 0

/-- Source lines 136-164: the `_remaining` computation (counter preload value)
of uTimerLib::_attachInterrupt_us on AVR, one branch per prescaler choice.
Each `0.5` is added to an already integer-divided quotient inside a double
expression that is truncated on assignment, see `cTruncSubHalf`. -/
def avrRemainingUs (us : Nat) : Nat :=
  if us ≥ 16384 then cTruncSubHalf 256 (us % 16384 / 64)
  else if us ≥ 4096 then cTruncSubHalf 256 (us / 64)
  else if us ≥ 2048 then cTruncSubHalf 256 (us / 16)
  else if us ≥ 1024 then cTruncSubHalf 256 (us / 8)
  else if us ≥ 512 then cTruncSubHalf 256 (us / 4)
  else if us ≥ 128 then cTruncSubHalf 256 (us / 2)
  else if us ≥ 16 then 256 - us * 2
  else 256 - us * 16

/-- Source lines 109-184: uTimerLib::_attachInterrupt_us, AVR branch. A zero
duration returns immediately (marked `// Not valid` in the source). Otherwise
the live counters and the plan mirrors are set; if the plan needs no full
overflow period, the remainder is handed to the hardware counter by
_loadRemaining() and the live `_remaining` is zeroed. -/
def attachInterrupt_us (st : TimerState) (us : Nat) : TimerState :=
  if us = 0 then st
  else
    let st := { st with
      _overflows := avrOverflowsUs us, _remaining := avrRemainingUs us,
      __overflows := avrOverflowsUs us, __remaining := avrRemainingUs us }
    if st.__overflows = 0 then { st with _remaining := 0 } else st

/-- Source lines 420-471: uTimerLib::_attachInterrupt_s, AVR branch. The guard
of the `_overflows` computation reads the value of `_overflows` left over from
the previous timer, before assigning it. `floor(s / 16384)` applies floor to an
already integer quotient, hence equals `s / 16384`. Every product is a 32-bit
`unsigned long` product, taken mod 2 ^ 32. Unlike the microsecond path, the
`__overflows == 0` branch calls _loadRemaining() without zeroing `_remaining`,
so the state is the same in both branches. -/
def attachInterrupt_s (st : TimerState) (s : Nat) : TimerState :=
  if s = 0 then st
  else
    let ov : Nat :=
      if st._overflows > 500000 then s / 16384 * 1000000 % 2 ^ 32
      else s * 1000000 % 2 ^ 32 / 16384
    let rem : Nat :=
      if s > 16384 then
        let temp := s / 16384 * 16384
        cTruncSubHalf 256 ((s - temp) * 1000000 % 2 ^ 32 % 16384 / 64)
      else
        cTruncSubHalf 256 (s * 1000000 % 2 ^ 32 % 16384 / 64)
    { st with _overflows := ov, _remaining := rem,
              __overflows := ov, __remaining := rem }

/-- Source lines 260-267: the ESP8266/ESP32 branch of
uTimerLib::_attachInterrupt_us computes the millisecond count handed to
`_ticker.attach_ms`. `us / 1000` is C unsigned integer division; the `+ 0.5`
happens in double and the result is truncated on assignment back to
`unsigned long int ms`; a zero count is replaced by 1. -/
def espTickerMs (us : Nat) : Nat :=
  let ms := cTruncAddHalf (us / 1000)
  if ms = 0 then 1 else ms

/-- Source lines 659-694: uTimerLib::clearTimer sets `_type` to OFF and
disables the hardware interrupt. It does not touch `_cb`, the live counters or
the plan mirrors. -/
def clearTimer (st : TimerState) : TimerState := { st with _type := .off }

/-- Source lines 45-50: uTimerLib::setInterval_us. -/
def setInterval_us (st : TimerState) (cb us : Nat) : TimerState :=
  attachInterrupt_us
    { clearTimer st with _cb := some cb, _type := .interval } us

/-- Source lines 59-64: uTimerLib::setTimeout_us. -/
def setTimeout_us (st : TimerState) (cb us : Nat) : TimerState :=
  attachInterrupt_us
    { clearTimer st with _cb := some cb, _type := .timeout } us

/-- Source lines 73-78: uTimerLib::setInterval_s. -/
def setInterval_s (st : TimerState) (cb s : Nat) : TimerState :=
  attachInterrupt_s
    { clearTimer st with _cb := some cb, _type := .interval } s

/-- Source lines 87-92: uTimerLib::setTimeout_s. -/
def setTimeout_s (st : TimerState) (cb s : Nat) : TimerState :=
  attachInterrupt_s
    { clearTimer st with _cb := some cb, _type := .timeout } s

/-- Source lines 702-780: uTimerLib::_interrupt, the non-STM32 path, run once
per hardware expiry event. Returns the new state together with the list of
observable events (clearTimer call, user callback invocation) in the order the
source performs them. The in-place decrement `_overflows--` is modelled by
`ov`; the subsequent conditions read the decremented value, as in the source.
Pure hardware reloads (_loadRemaining, counter resets) do not change the
controller state. -/
def interruptStep (st : TimerState) : TimerState × List Evt :=
  if st._type = .off then (st, [])
  else
    let ov := if st._overflows > 0 then st._overflows - 1 else st._overflows
    if ov = 0 ∧ st._remaining > 0 then
      ({ st with _overflows := ov, _remaining := 0 }, [])
    else if ov = 0 ∧ st._remaining = 0 then
      if st._type = .timeout then
        (clearTimer { st with _overflows := ov }, [.cleared, .invoked])
      else
        if st.__overflows = 0 then
          ({ st with _overflows := ov, _remaining := 0 }, [.invoked])
        else
          ({ st with _overflows := st.__overflows,
                     _remaining := st.__remaining }, [.invoked])
    else
      ({ st with _overflows := ov }, [])

/-- State after `n` hardware expiry events. -/
def stepN : TimerState → Nat → TimerState
  | st, 0 => st
  | st, n + 1 => stepN (interruptStep st).1 n

/-- Concatenated event trace of `n` hardware expiry events. -/
def runTrace : TimerState → Nat → List Evt
  | _, 0 => []
  | st, n + 1 => (interruptStep st).2 ++ runTrace (interruptStep st).1 n

/-- Whether the expiry event number `i` (0-indexed) invokes the user
callback. -/
def firesAt (st : TimerState) (i : Nat) : Bool :=
  (interruptStep (stepN st i)).2.contains .invoked

/-- Operations that can reach the timer singleton: the public API calls and
hardware expiry events. The C duration parameters are `unsigned long int`,
32 bits wide on AVR. -/
inductive Op where
  | timeoutUs (cb us : Nat)
  | intervalUs (cb us : Nat)
  | timeoutS (cb s : Nat)
  | intervalS (cb s : Nat)
  | clear
  | expiry
deriving DecidableEq

/-- Apply one operation to the controller state. Durations are truncated to
the 32-bit `unsigned long int` parameter type of the API. -/
def applyOp (st : TimerState) : Op → TimerState
  | .timeoutUs cb us => setTimeout_us st cb (us % 2 ^ 32)
  | .intervalUs cb us => setInterval_us st cb (us % 2 ^ 32)
  | .timeoutS cb s => setTimeout_s st cb (s % 2 ^ 32)
  | .intervalS cb s => setInterval_s st cb (s % 2 ^ 32)
  | .clear => clearTimer st
  | .expiry => (interruptStep st).1

/-- State reached from power-on by a sequence of operations. -/
def run (ops : List Op) : TimerState := ops.foldl applyOp initState

/-- Total microseconds realised by the remainder leg of an AVR microsecond
plan: the counter is preloaded with the `_remaining` value and counts
`256 - _remaining` ticks of 64 µs up to its overflow. -/
def avrRemainderUs (us : Nat) : Nat :=
  64 * (256 - (attachInterrupt_us initState us).__remaining)

/-- Number of hardware expiry events making up one full logical period of an
armed plan `(O, rem)`: `O` chained overflow events plus, when a remainder leg
exists, one final expiry for it; a plan with no overflow periods is a single
expiry per period. -/
def periodLen (O rem : Nat) : Nat :=
  if O = 0 then 1 else if rem > 0 then O + 1 else O

/-- Controller state right after an interval plan `(O, rem)` with callback
`cb` has been armed: the shape produced by `attachInterrupt_us` in interval
mode. When `O = 0` the remainder has been handed to the hardware counter and
the live `_remaining` zeroed. -/
def armedInterval (O rem cb : Nat) : TimerState :=
  if O = 0 then ⟨.interval, 0, 0, 0, rem, some cb⟩
  else ⟨.interval, O, rem, O, rem, some cb⟩

/-- Countdown state in the middle of an interval plan `(O, rem)`: `k` chained
overflow expiries are still pending and the remainder leg has not been loaded
yet. -/
def midI (k O rem cb : Nat) : TimerState :=
  ⟨.interval, k, rem, O, rem, some cb⟩

/-- State of an interval plan `(O, rem)` whose remainder leg has been loaded
into the hardware counter (or that never had one): the next expiry completes
the period. -/
def loadedI (O rem cb : Nat) : TimerState :=
  ⟨.interval, 0, 0, O, rem, some cb⟩

/-- Modelled from the spec: round-to-nearest with ties rounding up, the
historical rule of adding 0.5 to the exact quotient `a / b` and truncating,
written with exact integers: `floor(a / b + 1/2) = (2a + b) / (2b)`. -/
def specRoundNearest (a b : Nat) : Nat := (2 * a + b) / (2 * b)

/-! ## Helper lemmas -/

theorem cTruncSubHalf_le255 (k : Nat) (h : k ≤ 255) :
    cTruncSubHalf 256 k = 255 - k := by
  unfold cTruncSubHalf
  omega

theorem cTruncAddHalf_id (k : Nat) : cTruncAddHalf k = k := by
  unfold cTruncAddHalf
  omega

theorem attachInterrupt_us_large (st : TimerState) (us : Nat) (h : 16384 ≤ us) :
    attachInterrupt_us st us =
      { st with _overflows := us / 16384,
                _remaining := cTruncSubHalf 256 (us % 16384 / 64),
                __overflows := us / 16384,
                __remaining := cTruncSubHalf 256 (us % 16384 / 64) } := by
  have h0 : us ≠ 0 := by omega
  have h1 : avrOverflowsUs us = us / 16384 := by simp [avrOverflowsUs, h]
  have h2 : avrRemainingUs us = cTruncSubHalf 256 (us % 16384 / 64) := by
    simp [avrRemainingUs, h]
  have h3 : ¬ (us / 16384 = 0) := by omega
  simp [attachInterrupt_us, h0, h1, h2, h3]

theorem interruptStep_off (st : TimerState) (h : st._type = .off) :
    interruptStep st = (st, []) := by
  simp [interruptStep, h]

theorem stepN_succ (st : TimerState) (n : Nat) :
    stepN st (n + 1) = stepN (interruptStep st).1 n := rfl

theorem runTrace_succ (st : TimerState) (n : Nat) :
    runTrace st (n + 1) = (interruptStep st).2 ++ runTrace (interruptStep st).1 n := rfl

theorem off_runs (st : TimerState) (h : st._type = .off) (k : Nat) :
    stepN st k = st ∧ runTrace st k = [] := by
  induction k with
  | zero => exact ⟨rfl, rfl⟩
  | succ k ih =>
    rw [stepN_succ, runTrace_succ, interruptStep_off st h]
    exact ⟨ih.1, by simp [ih.2]⟩

theorem clearTimer_type (st : TimerState) : (clearTimer st)._type = .off := rfl

/-! ## C1 -/

/-- C1 (counterexample): at requested duration 32704 µs on the AVR backend,
`us mod 16384 = 16320`, the preload computed is 0, and the remainder leg is a
full 256-tick overflow period of 16384 µs — not strictly below the
ticks-per-overflow period as the claim requires. -/
theorem C1_counterexample :
    16384 ≤ 32704 ∧ ¬ avrRemainderUs 32704 < 16384 := by decide

/-- C1 (amended): for every duration `us ≥ 16384` on the AVR backend, the plan
has `overflowCount = us / 16384` (floor), the remainder leg is at most one full
overflow period (equality is possible), and the total realised duration
`overflowCount * 16384 + remainder` overshoots `us` by at least 1 and at most
64 µs, i.e. it is within one 64 µs tick of the request. -/
theorem C1_plan_within_one_tick (us : Nat) (h : 16384 ≤ us) :
    (attachInterrupt_us initState us).__overflows = us / 16384 ∧
    avrRemainderUs us ≤ 16384 ∧
    us < us / 16384 * 16384 + avrRemainderUs us ∧
    us / 16384 * 16384 + avrRemainderUs us ≤ us + 64 := by
  have hk : us % 16384 / 64 ≤ 255 := by omega
  have hov : (attachInterrupt_us initState us).__overflows = us / 16384 := by
    rw [attachInterrupt_us_large initState us h]
  have hrem : avrRemainderUs us = 64 * (256 - (255 - us % 16384 / 64)) := by
    rw [avrRemainderUs, attachInterrupt_us_large initState us h]
    show 64 * (256 - cTruncSubHalf 256 (us % 16384 / 64)) = _
    rw [cTruncSubHalf_le255 _ hk]
  refine ⟨hov, ?_, ?_, ?_⟩ <;> rw [hrem] <;> omega

/-- C1 witness: duration 20000 µs gives plan overflowCount 1, remainder leg
3648 µs, total 20032 µs, 32 µs above the request. -/
theorem C1_plan_within_one_tick_witness :
    16384 ≤ 20000 ∧
    ((attachInterrupt_us initState 20000).__overflows = 20000 / 16384 ∧
     avrRemainderUs 20000 ≤ 16384 ∧
     20000 < 20000 / 16384 * 16384 + avrRemainderUs 20000 ∧
     20000 / 16384 * 16384 + avrRemainderUs 20000 ≤ 20000 + 64) :=
  ⟨by decide, C1_plan_within_one_tick 20000 (by decide)⟩

/-! ## C4 -/

/-- C4 (confirmed): after `setTimeout` immediately followed by `clearTimer`,
any number of stale expiry events (in particular one) produce no events at
all — the callback is never invoked — and leave the state unchanged, because
the handler returns at once when the mode is Off. -/
theorem C4_clear_then_stale_expiry (st : TimerState) (cb us k : Nat) :
    runTrace (clearTimer (setTimeout_us st cb us)) k = [] ∧
    stepN (clearTimer (setTimeout_us st cb us)) k =
      clearTimer (setTimeout_us st cb us) := by
  have h := off_runs (clearTimer (setTimeout_us st cb us)) (clearTimer_type _) k
  exact ⟨h.2, h.1⟩

/-! ## C5 -/

/-- C5 (counterexample): calling `setTimeout_us` with duration 0 from the
power-on state changes the mode from Off to Timeout: the zero-duration guard
sits inside `_attachInterrupt_us`, after the wrapper has already cleared the
previous timer and overwritten mode and callback. -/
theorem C5_counterexample :
    initState._type = TimerType.off ∧
    (setTimeout_us initState 7 0)._type = TimerType.timeout ∧
    (setTimeout_us initState 7 0)._type ≠ initState._type := by decide

/-- C5 (amended): a zero-duration call never arms the hardware and leaves the
live counters and the plan mirrors untouched, but it does cancel the previous
timer and overwrite the mode (to Timeout or Interval respectively) and the
stored callback. -/
theorem C5_zero_duration (st : TimerState) (cb : Nat) :
    setTimeout_us st cb 0 = { st with _type := .timeout, _cb := some cb } ∧
    setInterval_us st cb 0 = { st with _type := .interval, _cb := some cb } ∧
    setTimeout_s st cb 0 = { st with _type := .timeout, _cb := some cb } ∧
    setInterval_s st cb 0 = { st with _type := .interval, _cb := some cb } := by
  cases st
  exact ⟨rfl, rfl, rfl, rfl⟩

/-! ## C7 -/

/-- C7 (counterexample): at the completion expiry of a timeout, the handler
first calls `clearTimer()` and only then invokes the callback — the event
trace is [cleared, invoked], not [invoked, cleared] as claimed. -/
theorem C7_counterexample :
    (interruptStep (setTimeout_us initState 7 100)).2 =
      [Evt.cleared, Evt.invoked] ∧
    (interruptStep (setTimeout_us initState 7 100)).2 ≠
      [Evt.invoked, Evt.cleared] := by decide

/-- C7 (amended): on a completion expiry in Timeout mode (no overflow periods
left beyond the one being consumed and no remainder pending), the handler
calls `clearTimer` first, then invokes the user callback exactly once; the
callback therefore runs after the transition to Off, and the post-state mode
is Off. -/
theorem C7_timeout_completion (st : TimerState) (h1 : st._type = .timeout)
    (h2 : st._overflows ≤ 1) (h3 : st._remaining = 0) :
    (interruptStep st).2 = [Evt.cleared, Evt.invoked] ∧
    (interruptStep st).2.count Evt.invoked = 1 ∧
    (interruptStep st).1._type = TimerType.off := by
  have hov : (if st._overflows > 0 then st._overflows - 1 else st._overflows) = 0 := by
    by_cases hp : st._overflows > 0
    · simp only [hp, if_true]
      omega
    · simp only [hp, if_false]
      omega
  simp [interruptStep, h1, h3, hov, clearTimer]

/-- C7 witness: the armed state of `setTimeout_us` with 100 µs is a completion
state, and one expiry clears then invokes. -/
theorem C7_timeout_completion_witness :
    (setTimeout_us initState 7 100)._type = TimerType.timeout ∧
    (setTimeout_us initState 7 100)._overflows ≤ 1 ∧
    (setTimeout_us initState 7 100)._remaining = 0 ∧
    ((interruptStep (setTimeout_us initState 7 100)).2 =
        [Evt.cleared, Evt.invoked] ∧
     (interruptStep (setTimeout_us initState 7 100)).2.count Evt.invoked = 1 ∧
     (interruptStep (setTimeout_us initState 7 100)).1._type = TimerType.off) :=
  ⟨by decide, by decide, by decide,
   C7_timeout_completion (setTimeout_us initState 7 100)
     (by decide) (by decide) (by decide)⟩

/-! ## C8 -/

/-- C8 (counterexample): the ESP8266/ESP32 conversion of 1500 µs yields 1 ms,
while round-to-nearest with ties up would yield 2 ms: the `+ 0.5` is added
only after the integer division has already truncated, so nothing is rounded
to nearest. -/
theorem C8_counterexample :
    espTickerMs 1500 = 1 ∧ specRoundNearest 1500 1000 = 2 ∧
    espTickerMs 1500 ≠ specRoundNearest 1500 1000 := by decide

/-- C8 (amended): the conversions truncate. The ESP backend arms the truncated
quotient `us / 1000` (clamped to 1), and the AVR remainder preload for
`us ≥ 16384` is `255 - (us mod 16384) / 64` — the truncated quotient, which the
`+ 0.5` then shifts by one count instead of rounding to nearest. -/
theorem C8_conversions_truncate (us : Nat) (h : 16384 ≤ us) :
    espTickerMs us = (if us / 1000 = 0 then 1 else us / 1000) ∧
    avrRemainingUs us = 255 - us % 16384 / 64 := by
  constructor
  · simp only [espTickerMs, cTruncAddHalf_id]
  · have hk : us % 16384 / 64 ≤ 255 := by omega
    simp [avrRemainingUs, h, cTruncSubHalf_le255 _ hk]

/-- C8 witness: at 20000 µs the ESP conversion arms 20 ms and the AVR preload
is 199 = 255 - 56. -/
theorem C8_conversions_truncate_witness :
    16384 ≤ 20000 ∧
    (espTickerMs 20000 = (if 20000 / 1000 = 0 then 1 else 20000 / 1000) ∧
     avrRemainingUs 20000 = 255 - 20000 % 16384 / 64) :=
  ⟨by decide, C8_conversions_truncate 20000 (by decide)⟩

/-! ## C10 -/

/-- C10 (confirmed): for every positive microsecond duration, the
ESP8266/ESP32 backend arms the software ticker for `max 1 (us / 1000)`
milliseconds: the duration is truncated to whole milliseconds and requests
below 1000 µs are stretched to 1 ms. -/
theorem C10_esp_arms_max1_floor (us : Nat) (h : 0 < us) :
    espTickerMs us = max 1 (us / 1000) := by
  simp only [espTickerMs, cTruncAddHalf_id]
  by_cases h0 : us / 1000 = 0
  · rw [if_pos h0, h0]
    decide
  · rw [if_neg h0]
    omega

/-- C10 witness: 2500 µs arms 2 ms; 500 µs would arm 1 ms. -/
theorem C10_esp_arms_max1_floor_witness :
    0 < 2500 ∧ espTickerMs 2500 = max 1 (2500 / 1000) :=
  ⟨by decide, C10_esp_arms_max1_floor 2500 (by decide)⟩

/-! ## Interval state machine lemmas -/
theorem step_midI_big (k O rem cb : Nat) (hk : 2 ≤ k) :
    interruptStep (midI k O rem cb) = (midI (k - 1) O rem cb, []) := by
  obtain ⟨j, rfl⟩ : ∃ j, k = j + 2 := ⟨k - 2, by omega⟩
  have e1 : j + 2 - 1 = j + 1 := by omega
  simp [interruptStep, midI, e1]

theorem step_midI_one_pos (O rem cb : Nat) (h : 0 < rem) :
    interruptStep (midI 1 O rem cb) = (loadedI O rem cb, []) := by
  simp [interruptStep, midI, loadedI, h]

theorem step_midI_one_zero (O cb : Nat) (h : O ≠ 0) :
    interruptStep (midI 1 O 0 cb) = (midI O O 0 cb, [.invoked]) := by
  simp [interruptStep, midI, h]

theorem step_loadedI_pos (O rem cb : Nat) (h : O ≠ 0) :
    interruptStep (loadedI O rem cb) = (midI O O rem cb, [.invoked]) := by
  simp [interruptStep, midI, loadedI, h]

theorem step_loadedI_zero (rem cb : Nat) :
    interruptStep (loadedI 0 rem cb) = (loadedI 0 rem cb, [.invoked]) := by
  simp [interruptStep, loadedI]

theorem stepN_add (st : TimerState) (a b : Nat) :
    stepN st (a + b) = stepN (stepN st a) b := by
  induction a generalizing st with
  | zero => rw [Nat.zero_add]; rfl
  | succ a ih =>
    have e : a + 1 + b = (a + b) + 1 := by omega
    rw [e, stepN_succ st (a + b), stepN_succ st a, ih]

theorem runTrace_add (st : TimerState) (a b : Nat) :
    runTrace st (a + b) = runTrace st a ++ runTrace (stepN st a) b := by
  induction a generalizing st with
  | zero => rw [Nat.zero_add]; rfl
  | succ a ih =>
    have e : a + 1 + b = (a + b) + 1 := by omega
    rw [e, runTrace_succ st (a + b), runTrace_succ st a, ih, stepN_succ]
    simp

theorem stepN_midI (O rem cb : Nat) : ∀ i j, i ≤ j →
    stepN (midI (j + 1) O rem cb) i = midI (j + 1 - i) O rem cb := by
  intro i
  induction i with
  | zero => intro j _; rfl
  | succ i ih =>
    intro j hij
    obtain ⟨j', rfl⟩ : ∃ j', j = j' + 1 := ⟨j - 1, by omega⟩
    rw [stepN_succ, step_midI_big (j' + 2) O rem cb (by omega)]
    have e1 : j' + 2 - 1 = j' + 1 := by omega
    show stepN (midI (j' + 2 - 1) O rem cb) i = _
    rw [e1, ih j' (by omega)]
    congr 1
    omega

theorem trace_midI (O rem cb : Nat) : ∀ i j, i ≤ j →
    runTrace (midI (j + 1) O rem cb) i = [] := by
  intro i
  induction i with
  | zero => intro j _; rfl
  | succ i ih =>
    intro j hij
    obtain ⟨j', rfl⟩ : ∃ j', j = j' + 1 := ⟨j - 1, by omega⟩
    rw [runTrace_succ, step_midI_big (j' + 2) O rem cb (by omega)]
    have e1 : j' + 2 - 1 = j' + 1 := by omega
    show ([] : List Evt) ++ runTrace (midI (j' + 2 - 1) O rem cb) i = []
    rw [e1, ih j' (by omega)]
    rfl

theorem periodLen_pos (O rem : Nat) : 0 < periodLen O rem := by
  unfold periodLen
  split_ifs <;> omega

theorem armedInterval_zero (rem cb : Nat) :
    armedInterval 0 rem cb = loadedI 0 rem cb := by
  simp [armedInterval, loadedI]

theorem armedInterval_succ (j rem cb : Nat) :
    armedInterval (j + 1) rem cb = midI (j + 1) (j + 1) rem cb := by
  simp [armedInterval, midI]

theorem armedInterval_mirrors (O rem cb : Nat) :
    (armedInterval O rem cb).__overflows = O ∧
    (armedInterval O rem cb).__remaining = rem ∧
    (armedInterval O rem cb)._type = TimerType.interval := by
  unfold armedInterval
  split_ifs with h
  · subst h; exact ⟨rfl, rfl, rfl⟩
  · exact ⟨rfl, rfl, rfl⟩

theorem period_state (O rem cb : Nat) :
    stepN (armedInterval O rem cb) (periodLen O rem) = armedInterval O rem cb := by
  match O with
  | 0 =>
    rw [armedInterval_zero, show periodLen 0 rem = 1 by simp [periodLen],
        stepN_succ, step_loadedI_zero]
    rfl
  | j + 1 =>
    rw [armedInterval_succ]
    by_cases hrem : rem = 0
    · subst hrem
      rw [show periodLen (j + 1) 0 = j + 1 by simp [periodLen],
          stepN_add _ j 1, stepN_midI _ _ _ j j le_rfl,
          show j + 1 - j = 1 by omega,
          stepN_succ, step_midI_one_zero _ _ (by omega)]
      rfl
    · rw [show periodLen (j + 1) rem = j + 2 by simp [periodLen]; omega,
          stepN_add _ j 2, stepN_midI _ _ _ j j le_rfl,
          show j + 1 - j = 1 by omega,
          stepN_succ, step_midI_one_pos _ _ _ (by omega),
          stepN_succ, step_loadedI_pos _ _ _ (by omega)]
      rfl

theorem period_trace (O rem cb : Nat) :
    runTrace (armedInterval O rem cb) (periodLen O rem) = [Evt.invoked] := by
  match O with
  | 0 =>
    rw [armedInterval_zero, show periodLen 0 rem = 1 by simp [periodLen],
        runTrace_succ, step_loadedI_zero]
    rfl
  | j + 1 =>
    rw [armedInterval_succ]
    by_cases hrem : rem = 0
    · subst hrem
      rw [show periodLen (j + 1) 0 = j + 1 by simp [periodLen],
          runTrace_add _ j 1, trace_midI _ _ _ j j le_rfl,
          stepN_midI _ _ _ j j le_rfl, show j + 1 - j = 1 by omega,
          runTrace_succ, step_midI_one_zero _ _ (by omega)]
      rfl
    · rw [show periodLen (j + 1) rem = j + 2 by simp [periodLen]; omega,
          runTrace_add _ j 2, trace_midI _ _ _ j j le_rfl,
          stepN_midI _ _ _ j j le_rfl, show j + 1 - j = 1 by omega,
          runTrace_succ, step_midI_one_pos _ _ _ (by omega),
          runTrace_succ, step_loadedI_pos _ _ _ (by omega)]
      rfl

theorem cycles_state (O rem cb n : Nat) :
    stepN (armedInterval O rem cb) (n * periodLen O rem) = armedInterval O rem cb := by
  induction n with
  | zero => rw [Nat.zero_mul]; rfl
  | succ n ih => rw [Nat.succ_mul, stepN_add, ih, period_state]

theorem cycles_trace (O rem cb n : Nat) :
    runTrace (armedInterval O rem cb) (n * periodLen O rem) =
      List.replicate n Evt.invoked := by
  induction n with
  | zero => rw [Nat.zero_mul]; rfl
  | succ n ih =>
    rw [Nat.succ_mul, runTrace_add, ih, cycles_state, period_trace,
        ← List.replicate_succ']

theorem fires_in_period (O rem cb i : Nat) (hi : i < periodLen O rem) :
    (firesAt (armedInterval O rem cb) i = true ↔ i + 1 = periodLen O rem) := by
  match O with
  | 0 =>
    have hp : periodLen 0 rem = 1 := by simp [periodLen]
    rw [hp] at hi ⊢
    have hi0 : i = 0 := by omega
    subst hi0
    rw [armedInterval_zero]
    unfold firesAt
    rw [show stepN (loadedI 0 rem cb) 0 = loadedI 0 rem cb from rfl,
        step_loadedI_zero]
    simp
  | j + 1 =>
    rw [armedInterval_succ]
    by_cases hrem : rem = 0
    · subst hrem
      have hp : periodLen (j + 1) 0 = j + 1 := by simp [periodLen]
      rw [hp] at hi ⊢
      unfold firesAt
      by_cases hij : i < j
      · rw [stepN_midI _ _ _ i j (by omega),
            step_midI_big _ _ _ _ (by omega)]
        simp
        omega
      · have hij2 : i = j := by omega
        rw [hij2, stepN_midI _ _ _ j j le_rfl, show j + 1 - j = 1 by omega,
            step_midI_one_zero _ _ (by omega)]
        simp
    · have hp : periodLen (j + 1) rem = j + 2 := by simp [periodLen]; omega
      rw [hp] at hi ⊢
      unfold firesAt
      by_cases hij : i ≤ j
      · rw [stepN_midI _ _ _ i j hij]
        by_cases hij2 : i < j
        · rw [step_midI_big _ _ _ _ (by omega)]
          simp
          omega
        · have hij3 : i = j := by omega
          rw [hij3, show j + 1 - j = 1 by omega, step_midI_one_pos _ _ _ (by omega)]
          simp
      · have hij4 : i = j + 1 := by omega
        rw [hij4, stepN_add _ j 1, stepN_midI _ _ _ j j le_rfl,
            show j + 1 - j = 1 by omega,
            stepN_succ, step_midI_one_pos _ _ _ (by omega),
            show stepN (loadedI (j + 1) rem cb) 0 = loadedI (j + 1) rem cb from rfl,
            step_loadedI_pos _ _ _ (by omega)]
        simp

theorem fires_cycles (O rem cb i : Nat) :
    (firesAt (armedInterval O rem cb) i = true ↔
      (i + 1) % periodLen O rem = 0) := by
  have hP := periodLen_pos O rem
  have hdm := Nat.div_add_mod i (periodLen O rem)
  have hmod : i % periodLen O rem < periodLen O rem := Nat.mod_lt _ hP
  have hsplit : stepN (armedInterval O rem cb) i =
      stepN (armedInterval O rem cb) (i % periodLen O rem) := by
    conv_lhs => rw [← hdm]
    rw [Nat.mul_comm, stepN_add, cycles_state]
  have hfat : firesAt (armedInterval O rem cb) i =
      firesAt (armedInterval O rem cb) (i % periodLen O rem) := by
    unfold firesAt
    rw [hsplit]
  have hmd : (i + 1) % periodLen O rem =
      (i % periodLen O rem + 1) % periodLen O rem := by
    conv_lhs => rw [← hdm]
    rw [Nat.add_assoc, Nat.mul_add_mod]
  rw [hfat, fires_in_period O rem cb _ hmod, hmd]
  constructor
  · intro h
    rw [h, Nat.mod_self]
  · intro h
    rcases Nat.lt_or_ge (i % periodLen O rem + 1) (periodLen O rem) with hlt | hge
    · rw [Nat.mod_eq_of_lt hlt] at h
      omega
    · omega

theorem setInterval_us_arm (st : TimerState) (cb us : Nat) (h : us ≠ 0) :
    setInterval_us st cb us =
      armedInterval (avrOverflowsUs us) (avrRemainingUs us) cb := by
  cases st
  simp only [setInterval_us, clearTimer, attachInterrupt_us, h, if_false,
    armedInterval, midI, loadedI]
  by_cases h0 : avrOverflowsUs us = 0 <;> simp [h0]

/-! ## C2 -/

/-- C2 (confirmed): for every positive duration and every `n ≥ 1`, after
`setInterval_us` the controller, fed exactly `n` full logical periods of
expiry events (`periodLen` events per period: the chained overflows plus the
remainder leg), returns to exactly the armed state each period (so it keeps
re-arming indefinitely while the mode stays Interval), invokes the callback
exactly `n` times, and fires precisely on the last expiry of each period and
on no other expiry. -/
theorem C2_interval_once_per_period (us cb n : Nat) (hus : 0 < us)
    (hn : 1 ≤ n) :
    stepN (setInterval_us initState cb us)
        (n * periodLen (avrOverflowsUs us) (avrRemainingUs us)) =
      setInterval_us initState cb us ∧
    (runTrace (setInterval_us initState cb us)
        (n * periodLen (avrOverflowsUs us) (avrRemainingUs us))).count
      Evt.invoked = n ∧
    (∀ i, i < n * periodLen (avrOverflowsUs us) (avrRemainingUs us) →
      (firesAt (setInterval_us initState cb us) i = true ↔
        (i + 1) % periodLen (avrOverflowsUs us) (avrRemainingUs us) = 0)) ∧
    (setInterval_us initState cb us)._type = TimerType.interval := by
  have h0 : us ≠ 0 := by omega
  rw [setInterval_us_arm initState cb us h0]
  refine ⟨cycles_state _ _ _ _, ?_, ?_, (armedInterval_mirrors _ _ _).2.2⟩
  · rw [cycles_trace]
    simp
  · intro i _
    exact fires_cycles _ _ _ _

/-- C2 witness: duration 20000 µs (plan 1 overflow + 3648 µs remainder, 2
expiries per period) run for 2 periods fires exactly twice, on expiries 2 and
4. -/
theorem C2_interval_once_per_period_witness :
    0 < 20000 ∧ 1 ≤ 2 ∧
    (stepN (setInterval_us initState 7 20000)
        (2 * periodLen (avrOverflowsUs 20000) (avrRemainingUs 20000)) =
      setInterval_us initState 7 20000 ∧
    (runTrace (setInterval_us initState 7 20000)
        (2 * periodLen (avrOverflowsUs 20000) (avrRemainingUs 20000))).count
      Evt.invoked = 2 ∧
    (∀ i, i < 2 * periodLen (avrOverflowsUs 20000) (avrRemainingUs 20000) →
      (firesAt (setInterval_us initState 7 20000) i = true ↔
        (i + 1) % periodLen (avrOverflowsUs 20000) (avrRemainingUs 20000) = 0)) ∧
    (setInterval_us initState 7 20000)._type = TimerType.interval) :=
  ⟨by decide, by decide,
   C2_interval_once_per_period 20000 7 2 (by decide) (by decide)⟩

/-! ## C3 -/

/-- C3 (confirmed): the callback fires on the last expiry of the period, and
the state immediately after that expiry equals the armed state of the original
plan exactly: in particular the plan mirrors still hold the originally
computed overflow count and remainder, so every cycle repeats the identical
plan with no drift. -/
theorem C3_rearm_equals_original (us cb : Nat) (h : 0 < us) :
    firesAt (setInterval_us initState cb us)
        (periodLen (avrOverflowsUs us) (avrRemainingUs us) - 1) = true ∧
    stepN (setInterval_us initState cb us)
        (periodLen (avrOverflowsUs us) (avrRemainingUs us)) =
      setInterval_us initState cb us ∧
    (stepN (setInterval_us initState cb us)
        (periodLen (avrOverflowsUs us) (avrRemainingUs us))).__overflows =
      avrOverflowsUs us ∧
    (stepN (setInterval_us initState cb us)
        (periodLen (avrOverflowsUs us) (avrRemainingUs us))).__remaining =
      avrRemainingUs us := by
  have h0 : us ≠ 0 := by omega
  rw [setInterval_us_arm initState cb us h0]
  have hP := periodLen_pos (avrOverflowsUs us) (avrRemainingUs us)
  have hst := period_state (avrOverflowsUs us) (avrRemainingUs us) cb
  refine ⟨?_, hst, ?_, ?_⟩
  · exact (fires_in_period (avrOverflowsUs us) (avrRemainingUs us) cb _
      (by omega)).mpr (by omega)
  · rw [hst]
    exact (armedInterval_mirrors _ _ _).1
  · rw [hst]
    exact (armedInterval_mirrors _ _ _).2.1

/-- C3 witness: at 20000 µs the second expiry of the period fires the callback
and restores the armed state with the plan mirrors (1, 199). -/
theorem C3_rearm_equals_original_witness :
    0 < 20000 ∧
    (firesAt (setInterval_us initState 3 20000)
        (periodLen (avrOverflowsUs 20000) (avrRemainingUs 20000) - 1) = true ∧
    stepN (setInterval_us initState 3 20000)
        (periodLen (avrOverflowsUs 20000) (avrRemainingUs 20000)) =
      setInterval_us initState 3 20000 ∧
    (stepN (setInterval_us initState 3 20000)
        (periodLen (avrOverflowsUs 20000) (avrRemainingUs 20000))).__overflows =
      avrOverflowsUs 20000 ∧
    (stepN (setInterval_us initState 3 20000)
        (periodLen (avrOverflowsUs 20000) (avrRemainingUs 20000))).__remaining =
      avrRemainingUs 20000) :=
  ⟨by decide, C3_rearm_equals_original 20000 3 (by decide)⟩

/-! ## Invariant machinery for C6 and C9 -/

theorem interruptStep_cb (st : TimerState) :
    (interruptStep st).1._cb = st._cb := by
  simp only [interruptStep, clearTimer]
  split_ifs <;> rfl

theorem interruptStep_type (st : TimerState) :
    (interruptStep st).1._type = st._type ∨
    (interruptStep st).1._type = TimerType.off := by
  simp only [interruptStep, clearTimer]
  split_ifs <;> simp

theorem setTimeout_us_fields (st : TimerState) (cb us : Nat) :
    (setTimeout_us st cb us)._cb = some cb ∧
    (setTimeout_us st cb us)._type = TimerType.timeout := by
  simp only [setTimeout_us, attachInterrupt_us]
  split_ifs <;> exact ⟨rfl, rfl⟩

theorem setInterval_us_fields (st : TimerState) (cb us : Nat) :
    (setInterval_us st cb us)._cb = some cb ∧
    (setInterval_us st cb us)._type = TimerType.interval := by
  simp only [setInterval_us, attachInterrupt_us]
  split_ifs <;> exact ⟨rfl, rfl⟩

theorem setTimeout_s_fields (st : TimerState) (cb s : Nat) :
    (setTimeout_s st cb s)._cb = some cb ∧
    (setTimeout_s st cb s)._type = TimerType.timeout := by
  simp only [setTimeout_s, attachInterrupt_s]
  split_ifs <;> exact ⟨rfl, rfl⟩

theorem setInterval_s_fields (st : TimerState) (cb s : Nat) :
    (setInterval_s st cb s)._cb = some cb ∧
    (setInterval_s st cb s)._type = TimerType.interval := by
  simp only [setInterval_s, attachInterrupt_s]
  split_ifs <;> exact ⟨rfl, rfl⟩

theorem applyOp_cbInv (st : TimerState) (op : Op)
    (h : st._type ≠ TimerType.off → st._cb ≠ none) :
    (applyOp st op)._type ≠ TimerType.off → (applyOp st op)._cb ≠ none := by
  cases op with
  | timeoutUs cb us =>
    intro _
    show (setTimeout_us st cb (us % 2 ^ 32))._cb ≠ none
    rw [(setTimeout_us_fields st cb _).1]
    simp
  | intervalUs cb us =>
    intro _
    show (setInterval_us st cb (us % 2 ^ 32))._cb ≠ none
    rw [(setInterval_us_fields st cb _).1]
    simp
  | timeoutS cb s =>
    intro _
    show (setTimeout_s st cb (s % 2 ^ 32))._cb ≠ none
    rw [(setTimeout_s_fields st cb _).1]
    simp
  | intervalS cb s =>
    intro _
    show (setInterval_s st cb (s % 2 ^ 32))._cb ≠ none
    rw [(setInterval_s_fields st cb _).1]
    simp
  | clear =>
    intro hc
    exact absurd (clearTimer_type st) hc
  | expiry =>
    intro hc
    show (interruptStep st).1._cb ≠ none
    rw [interruptStep_cb]
    apply h
    have hc2 : (interruptStep st).1._type ≠ TimerType.off := hc
    rcases interruptStep_type st with he | he
    · rw [he] at hc2
      exact hc2
    · rw [he] at hc2
      exact absurd rfl hc2

theorem avrOverflowsUs_bound (us : Nat) (h : us ≤ 2 ^ 32 - 1) :
    avrOverflowsUs us ≤ 262143 := by
  unfold avrOverflowsUs
  split_ifs <;> omega

theorem attach_us_bound (st : TimerState) (us : Nat)
    (h1 : st._overflows ≤ 262143) (h2 : st.__overflows ≤ 262143)
    (hus : us ≤ 2 ^ 32 - 1) :
    (attachInterrupt_us st us)._overflows ≤ 262143 ∧
    (attachInterrupt_us st us).__overflows ≤ 262143 := by
  have hov := avrOverflowsUs_bound us hus
  simp only [attachInterrupt_us]
  split_ifs <;> refine ⟨?_, ?_⟩ <;> dsimp only <;> omega

theorem attach_s_bound (st : TimerState) (s : Nat)
    (h1 : st._overflows ≤ 262143) (h2 : st.__overflows ≤ 262143) :
    (attachInterrupt_s st s)._overflows ≤ 262143 ∧
    (attachInterrupt_s st s).__overflows ≤ 262143 := by
  simp only [attachInterrupt_s]
  split_ifs <;> refine ⟨?_, ?_⟩ <;> dsimp only <;> omega

theorem interruptStep_bound (st : TimerState)
    (h1 : st._overflows ≤ 262143) (h2 : st.__overflows ≤ 262143) :
    (interruptStep st).1._overflows ≤ 262143 ∧
    (interruptStep st).1.__overflows ≤ 262143 := by
  simp only [interruptStep, clearTimer]
  split_ifs <;> refine ⟨?_, ?_⟩ <;> dsimp only <;> omega

theorem applyOp_bound (st : TimerState) (op : Op)
    (h1 : st._overflows ≤ 262143) (h2 : st.__overflows ≤ 262143) :
    (applyOp st op)._overflows ≤ 262143 ∧
    (applyOp st op).__overflows ≤ 262143 := by
  cases op with
  | timeoutUs cb us => exact attach_us_bound _ _ h1 h2 (by omega)
  | intervalUs cb us => exact attach_us_bound _ _ h1 h2 (by omega)
  | timeoutS cb s => exact attach_s_bound _ _ h1 h2
  | intervalS cb s => exact attach_s_bound _ _ h1 h2
  | clear => exact ⟨h1, h2⟩
  | expiry => exact interruptStep_bound _ h1 h2

theorem run_bound (ops : List Op) :
    (run ops)._overflows ≤ 262143 ∧ (run ops).__overflows ≤ 262143 := by
  suffices h : ∀ (l : List Op) (st : TimerState), st._overflows ≤ 262143 →
      st.__overflows ≤ 262143 →
      (l.foldl applyOp st)._overflows ≤ 262143 ∧
      (l.foldl applyOp st).__overflows ≤ 262143 by
    exact h ops initState (by decide) (by decide)
  intro l
  induction l with
  | nil => intro st h1 h2; exact ⟨h1, h2⟩
  | cons op l ih =>
    intro st h1 h2
    have hb := applyOp_bound st op h1 h2
    exact ih _ hb.1 hb.2

/-! ## C6 -/

/-- C6 (counterexample): after `setTimeout_us` followed by `clearTimer`, the
reachable state has mode Off while the stored callback pointer is still set:
`clearTimer` never clears `_cb`, so the claimed if-and-only-if fails. -/
theorem C6_counterexample :
    (run [Op.timeoutUs 7 100, Op.clear])._type = TimerType.off ∧
    (run [Op.timeoutUs 7 100, Op.clear])._cb = some 7 ∧
    ¬ ((run [Op.timeoutUs 7 100, Op.clear])._cb ≠ none ↔
       (run [Op.timeoutUs 7 100, Op.clear])._type ≠ TimerType.off) := by
  decide

/-- C6 (amended): in every state reachable by any sequence of API calls and
expiry events, the stored callback is set whenever the mode is not Off (the
forward implication of the claimed invariant holds), and `clearTimer` does set
the mode to Off — but it leaves the stored callback unchanged, so the reverse
implication fails. -/
theorem C6_mode_implies_callback (ops : List Op) :
    ((run ops)._type ≠ TimerType.off → (run ops)._cb ≠ none) ∧
    (∀ st : TimerState, (clearTimer st)._type = TimerType.off ∧
      (clearTimer st)._cb = st._cb) := by
  constructor
  · suffices h : ∀ (l : List Op) (st : TimerState),
        (st._type ≠ TimerType.off → st._cb ≠ none) →
        ((l.foldl applyOp st)._type ≠ TimerType.off →
          (l.foldl applyOp st)._cb ≠ none) by
      exact h ops initState (fun hc => absurd rfl hc)
    intro l
    induction l with
    | nil => intro st h; exact h
    | cons op l ih => intro st h; exact ih _ (applyOp_cbInv st op h)
  · intro st
    exact ⟨clearTimer_type st, rfl⟩

/-- C6 witness: after a single `setTimeout_us` call the mode is Timeout and
the callback is set. -/
theorem C6_mode_implies_callback_witness :
    ((run [Op.timeoutUs 7 100])._type ≠ TimerType.off →
      (run [Op.timeoutUs 7 100])._cb ≠ none) ∧
    (∀ st : TimerState, (clearTimer st)._type = TimerType.off ∧
      (clearTimer st)._cb = st._cb) :=
  C6_mode_implies_callback [Op.timeoutUs 7 100]

/-! ## C9 -/

/-- C9 (confirmed): the seconds-path duration-to-plan computation yields the
same plan for the same duration on any two reachable leftover states. The
guard does read the stale `_overflows`, but every reachable `_overflows` value
is at most 262143 (the 32-bit microsecond and wrapped seconds quotients by
16384 never exceed it), so the stale-dependent branch is dead and the computed
plan is a pure function of the requested duration. -/
theorem C9_seconds_plan_state_independent (ops1 ops2 : List Op) (s : Nat)
    (hs : s ≠ 0) :
    (attachInterrupt_s (run ops1) s)._overflows =
      (attachInterrupt_s (run ops2) s)._overflows ∧
    (attachInterrupt_s (run ops1) s)._remaining =
      (attachInterrupt_s (run ops2) s)._remaining ∧
    (attachInterrupt_s (run ops1) s).__overflows =
      (attachInterrupt_s (run ops2) s).__overflows ∧
    (attachInterrupt_s (run ops1) s).__remaining =
      (attachInterrupt_s (run ops2) s).__remaining := by
  have hb1 : ¬ (run ops1)._overflows > 500000 := by
    have := (run_bound ops1).1
    omega
  have hb2 : ¬ (run ops2)._overflows > 500000 := by
    have := (run_bound ops2).1
    omega
  simp only [attachInterrupt_s, hs, if_false, hb1, hb2, if_neg]
  exact ⟨trivial, trivial, trivial, trivial⟩

/-- C9 witness: a 2 s request computes the identical plan from the power-on
state and from the state left by a previous 20000 µs timeout. -/
theorem C9_seconds_plan_state_independent_witness :
    (2 : Nat) ≠ 0 ∧
    ((attachInterrupt_s (run []) 2)._overflows =
      (attachInterrupt_s (run [Op.timeoutUs 7 20000]) 2)._overflows ∧
    (attachInterrupt_s (run []) 2)._remaining =
      (attachInterrupt_s (run [Op.timeoutUs 7 20000]) 2)._remaining ∧
    (attachInterrupt_s (run []) 2).__overflows =
      (attachInterrupt_s (run [Op.timeoutUs 7 20000]) 2).__overflows ∧
    (attachInterrupt_s (run []) 2).__remaining =
      (attachInterrupt_s (run [Op.timeoutUs 7 20000]) 2).__remaining) :=
  ⟨by decide, C9_seconds_plan_state_independent [] [Op.timeoutUs 7 20000] 2
    (by decide)⟩
